import Mathlib

/-!
Verification development for the S3 image-listing backend.

The program is a small HTTP server that caches object-store ("S3") bucket
listings in memory and serves them to HTTP clients.  The shallow embedding
below translates the server's pure data flow into Lean:

* the backing store is a function from a list request to a result
  (one page of object keys, or a failure);
* the module-level mutable cache (`cachedImages`, `cachedFolders`) becomes
  an explicit `CacheState` threaded through the refresh operations;
* route handlers become functions from the cache state to an HTTP response
  together with the list of background actions (fire-and-forget refresh
  triggers) the handler dispatches; a handler that makes no backing-store
  call neither takes the store as an argument nor emits any action;
* the startup environment check becomes a function from the process
  environment (a map from variable name to optional string value) to a
  startup result;
* the property read `cachedFolders[folder]` follows JavaScript semantics:
  it resolves through the prototype chain, so on the plain object `{}` the
  names of the `Object.prototype` properties ("toString", "constructor",
  "valueOf", "__proto__", ...) read as truthy inherited values, not
  `undefined` (`readFolderProp`); the assignment `cachedFolders[key] = v`
  creates or updates an own entry except for `key = "__proto__"` with no
  own entry, where it sets the object's prototype and creates no own key
  (`setFolderJs`).  The prototype itself is never replaced in any program
  execution: the route triggers a population only for names whose read is
  `undefined`, which "__proto__" never is, and the timer only refreshes own
  keys, which "__proto__" never becomes — so reads are modelled against the
  original `Object.prototype` chain.

Source of the embedding: the caching server variant of the repository
(the file with `cachedImages` / `cachedFolders`, referred to by its lines
below); its sibling `server.js` shares `listObjects`, the URL template and
the startup check verbatim.
-/

/-- One object entry as returned by the backing store's list call
(an element of the S3 `Contents` array). -/
structure S3Object where
  Key : String
  deriving Repr, DecidableEq

/-- The response of one paginated list call against the backing store.
`Contents` is optional, as in the SDK (`data.Contents` may be absent);
`NextContinuationToken` is returned when the listing is truncated. -/
structure ListResponse where
  Contents : Option (List S3Object)
  NextContinuationToken : Option String
  IsTruncated : Bool
  deriving Repr, DecidableEq

/-- Parameters of one list call, with the defaults of the source's
destructuring: `Prefix = ""`, `MaxKeys = 1000`, `ContinuationToken = undefined`. -/
structure ListRequest where
  Bucket : String
  Prefix : String := ""
  MaxKeys : Nat := 1000
  ContinuationToken : Option String := none
  deriving Repr, DecidableEq

/-- A backing-store failure (network, auth, throttling). -/
inductive S3Error where
  | storeUnavailable
  deriving Repr, DecidableEq

/-- A behavior of the backing store: each list request either succeeds with
one page or fails.  The program is verified for every such behavior. -/
def Store : Type := ListRequest → Except S3Error ListResponse

/-- Embedding of `listObjects` (part_000 lines 25-34, server.js lines 24-33):
it builds exactly one `ListObjectsV2Command` from its parameters and returns
the store's answer; the `catch` branch only logs and rethrows, so the
function is the single store call itself.  It never loops on
`NextContinuationToken`. -/
def listObjects (s3 : Store) (req : ListRequest) : Except S3Error ListResponse :=
  s3 req

/-- The externally visible pair for one stored object. -/
structure ObjectEntry where
  key : String
  url : String
  deriving Repr, DecidableEq

/-- The URL template of the source:
`https://BUCKET.s3.REGION.amazonaws.com/KEY`. -/
def urlOf (bucket region key : String) : String :=
  "https://" ++ bucket ++ ".s3." ++ region ++ ".amazonaws.com/" ++ key

/-- Mapping of one raw store object to an `ObjectEntry`
(the arrow-function body inside `refreshImages` / `refreshFolder`). -/
def entryOf (bucket region : String) (file : S3Object) : ObjectEntry :=
  { key := file.Key, url := urlOf bucket region file.Key }

/-- Embedding of `data.Contents?.map((file) => ({key, url})) || []`. -/
def entriesOfResponse (bucket region : String) (data : ListResponse) : List ObjectEntry :=
  (data.Contents.map (fun files => files.map (entryOf bucket region))).getD []

/-- Property read `cachedFolders[folder]` on the folders object;
`none` models the JavaScript `undefined`. -/
def lookupFolder : List (String × List ObjectEntry) → String → Option (List ObjectEntry)
  | [], _ => none
  | (k, v) :: rest, key => if k = key then some v else lookupFolder rest key

/-- Property write `cachedFolders[folder] = v`: an existing key keeps its
position and gets the new value, a new key is appended (JavaScript object
insertion-order semantics). -/
def setFolder : List (String × List ObjectEntry) → String → List ObjectEntry →
    List (String × List ObjectEntry)
  | [], key, v => [(key, v)]
  | (k, w) :: rest, key, v =>
    if k = key then (key, v) :: rest else (k, w) :: setFolder rest key v

/-- The own, function-valued properties of `Object.prototype`, inherited by
the plain object `{}`: reading any of these names on `cachedFolders` when no
own entry shadows them yields a truthy function, not `undefined`. -/
def protoFunctionProps : List String :=
  ["constructor", "hasOwnProperty", "isPrototypeOf", "propertyIsEnumerable",
   "toLocaleString", "toString", "valueOf",
   "__defineGetter__", "__defineSetter__", "__lookupGetter__", "__lookupSetter__"]

/-- Whether a folder name collides with an `Object.prototype` property
(the function-valued ones, or the `__proto__` accessor). -/
def isProtoProp (key : String) : Bool :=
  decide (key = "__proto__" ∨ key ∈ protoFunctionProps)

/-- The JavaScript value obtained by reading a property of the folders
object: `undefined`, an inherited `Object.prototype` function, the inherited
prototype object (for `__proto__`), or an own array of entries. -/
inductive JsValue where
  | undef
  | protoFunction
  | protoObject
  | arr (entries : List ObjectEntry)
  deriving Repr, DecidableEq

/-- The full JavaScript property read `cachedFolders[key]`: an own entry
shadows the prototype; otherwise the read resolves through the (unmutated)
`Object.prototype` chain; only names absent from it read as `undefined`. -/
def readFolderProp (m : List (String × List ObjectEntry)) (key : String) : JsValue :=
  match lookupFolder m key with
  | some v => JsValue.arr v
  | none =>
    if key = "__proto__" then JsValue.protoObject
    else if key ∈ protoFunctionProps then JsValue.protoFunction
    else JsValue.undef

/-- The full JavaScript assignment `cachedFolders[key] = v`: for
`key = "__proto__"` with no own entry the assignment reaches the inherited
`__proto__` setter, which replaces the prototype and creates no own key
(so `Object.keys` never lists it and the own map is unchanged); every other
case writes an own entry. -/
def setFolderJs (m : List (String × List ObjectEntry)) (key : String)
    (v : List ObjectEntry) : List (String × List ObjectEntry) :=
  if key = "__proto__" ∧ lookupFolder m key = none then m
  else setFolder m key v

/-- The process-wide mutable cache (part_000 lines 54-55): the full listing
and the folder-name-to-listing object, the latter as an insertion-ordered
association list. -/
structure CacheState where
  cachedImages : List ObjectEntry
  cachedFolders : List (String × List ObjectEntry)
  deriving Repr, DecidableEq

/-- The cache at process start: `let cachedImages = []; let cachedFolders = {}`. -/
def initialState : CacheState := { cachedImages := [], cachedFolders := [] }

/-- Read of one folder slot. -/
def getFolder (st : CacheState) (folder : String) : Option (List ObjectEntry) :=
  lookupFolder st.cachedFolders folder

/-- Embedding of `refreshImages` (part_000 lines 57-68): one list call for the
whole bucket; on success `cachedImages` is replaced by the mapped `Contents`
in a single assignment; on failure the `catch` only logs, so the state is
returned unchanged. -/
def refreshImages (bucket region : String) (s3 : Store) (st : CacheState) : CacheState :=
  match listObjects s3 { Bucket := bucket } with
  | Except.ok data => { st with cachedImages := entriesOfResponse bucket region data }
  | Except.error _ => st

/-- Embedding of `refreshFolder` (part_000 lines 70-81): one list call with
`Prefix = folder ++ "/"`; on success `cachedFolders[folder]` is assigned the
mapped `Contents` in a single assignment (with JavaScript assignment
semantics, `setFolderJs`); on failure the `catch` only logs, so the state is
returned unchanged. -/
def refreshFolder (bucket region : String) (s3 : Store) (folder : String)
    (st : CacheState) : CacheState :=
  match listObjects s3 { Bucket := bucket, Prefix := folder ++ "/" } with
  | Except.ok data =>
    { st with cachedFolders := setFolderJs st.cachedFolders folder (entriesOfResponse bucket region data) }
  | Except.error _ => st

/-- HTTP responses a listing route can produce: a 200 JSON array; a 200 with
an empty body (`res.json` of an inherited function: `JSON.stringify` of a
function is `undefined`, so no body is sent); a 200 JSON object
(`res.json(Object.prototype)` for a never-populated "__proto__"); or the 500
of the error middleware (part_000 lines 115-118). -/
inductive HttpResponse where
  | okArray (body : List ObjectEntry)
  | okEmptyBody
  | okJsonObject
  | serverError
  deriving Repr, DecidableEq

/-- Whether a response is a 200 JSON array. -/
def isJsonArray : HttpResponse → Bool
  | HttpResponse.okArray _ => true
  | _ => false

/-- A background action dispatched by a handler without awaiting it. -/
inductive BackgroundAction where
  | triggerRefreshFolder (folder : String)
  deriving Repr, DecidableEq

/-- Embedding of `GET /api/images` (part_000 lines 98-100):
`res.json(cachedImages)` — the response is read from the cache state alone
(the handler does not receive the store) and no background action is
dispatched. -/
def getImagesRoute (st : CacheState) : HttpResponse × List BackgroundAction :=
  (HttpResponse.okArray st.cachedImages, [])

/-- Embedding of `GET /api/images/{folder}` (part_000 lines 103-113):
`!cachedFolders[folder]` is a truthiness test on the full JavaScript
property read.  Only when the read is `undefined` does the handler dispatch
`refreshFolder(folder)` without awaiting it and respond `[]`.  A cached own
array is served even when empty (arrays are truthy), and a name inherited
from `Object.prototype` is also truthy, so it is serialized instead:
`res.json` of an inherited function sends an empty body and `res.json` of
the prototype object sends a JSON object. -/
def getFolderImagesRoute (st : CacheState) (folder : String) :
    HttpResponse × List BackgroundAction :=
  match readFolderProp st.cachedFolders folder with
  | JsValue.undef => (HttpResponse.okArray [], [BackgroundAction.triggerRefreshFolder folder])
  | JsValue.arr entries => (HttpResponse.okArray entries, [])
  | JsValue.protoFunction => (HttpResponse.okEmptyBody, [])
  | JsValue.protoObject => (HttpResponse.okJsonObject, [])

/-- Actions dispatched by `n` successive polls of the folder route while the
cache state is unchanged (no triggered population has completed yet). -/
def processPolls (st : CacheState) (folder : String) : Nat → List BackgroundAction
  | 0 => []
  | n + 1 => (getFolderImagesRoute st folder).2 ++ processPolls st folder n

/-- The folder names currently present in the cache
(`Object.keys(cachedFolders)`). -/
def folderNames (st : CacheState) : List String :=
  st.cachedFolders.map Prod.fst

/-- Embedding of the folder-refresh timer callback (part_000 lines 88-90):
the key set is snapshotted once, then every folder in it is refreshed. -/
def folderTick (bucket region : String) (s3 : Store) (st : CacheState) : CacheState :=
  (folderNames st).foldl (fun acc f => refreshFolder bucket region s3 f acc) st

/-- One firing of both 45-second timers (part_000 lines 87-90): the full
refresh and the refresh of every currently known folder. -/
def tick (bucket region : String) (s3 : Store) (st : CacheState) : CacheState :=
  folderTick bucket region s3 (refreshImages bucket region s3 st)

/-- The process environment: a map from variable name to its value,
`none` modelling an unset variable. -/
def Env : Type := String → Option String

/-- The refresh interval in milliseconds as a function of the environment.
The source passes the literal `45 * 1000` to both `setInterval` calls
(part_000 lines 87-90) and reads no environment variable for it. -/
def refreshIntervalMs (_env : Env) : Nat :=
  45 * 1000

/-- The required startup variables (part_000 line 9). -/
def requiredEnv : List String :=
  ["AWS_BUCKET", "AWS_REGION", "AWS_ACCESS_KEY", "AWS_SECRET_KEY"]

/-- JavaScript truthiness of `process.env[key]`: `undefined` and the empty
string are falsy, every other string is truthy. -/
def truthy : Option String → Bool
  | none => false
  | some s => !(s == "")

/-- The first required variable whose value is falsy, if any
(the `forEach` at part_000 lines 10-15 exits at the first such key). -/
def firstMissing (env : Env) : Option String :=
  requiredEnv.find? (fun k => !truthy (env k))

/-- Embedding of `const PORT = process.env.PORT || 5000` (part_000 line 120). -/
def portOf (env : Env) : String :=
  match env "PORT" with
  | some s => if s = "" then "5000" else s
  | none => "5000"

/-- Outcome of process startup: either `process.exit(1)` after the diagnostic
naming the offending variable, or the HTTP listener is bound. -/
inductive StartupResult where
  | exited (missingKey : String)
  | listening (port : String)
  deriving Repr, DecidableEq

/-- Embedding of the startup sequence (part_000 lines 9-15 and 120-121): the
required-variable check runs before anything else; only when it passes does
control reach `app.listen`. -/
def startup (env : Env) : StartupResult :=
  match firstMissing env with
  | some k => StartupResult.exited k
  | none => StartupResult.listening (portOf env)

/-- Cache states reachable from process start by the program's own writers:
the initial full refresh, the timer ticks and the route-triggered folder
refreshes all go through `refreshImages` / `refreshFolder`. -/
inductive Reachable (bucket region : String) : CacheState → Prop
  | init : Reachable bucket region initialState
  | stepFull (s3 : Store) (st : CacheState) :
      Reachable bucket region st → Reachable bucket region (refreshImages bucket region s3 st)
  | stepFolder (s3 : Store) (folder : String) (st : CacheState) :
      Reachable bucket region st → Reachable bucket region (refreshFolder bucket region s3 folder st)

/-- Every entry of the state has `url` derived from `key` by the URL template. -/
def urlInvariant (bucket region : String) (st : CacheState) : Prop :=
  (∀ e ∈ st.cachedImages, e.url = urlOf bucket region e.key) ∧
  (∀ p ∈ st.cachedFolders, ∀ e ∈ p.2, e.url = urlOf bucket region e.key)

/-- A backing store that fails every list call. -/
def failingStore : Store := fun _ => Except.error S3Error.storeUnavailable

/-- A fixed successful page used to instantiate theorems. -/
def okStoreData : ListResponse :=
  { Contents := some [{ Key := "pics/cat.jpg" }, { Key := "pics/dog.jpg" }],
    NextContinuationToken := none, IsTruncated := false }

/-- A backing store that answers every list call with `okStoreData`. -/
def okStore : Store := fun _ => Except.ok okStoreData

/-- The first page of a two-page listing: truncated with a continuation token. -/
def pageOne : ListResponse :=
  { Contents := some [{ Key := "a.jpg" }],
    NextContinuationToken := some "tok", IsTruncated := true }

/-- The second page of a two-page listing. -/
def pageTwo : ListResponse :=
  { Contents := some [{ Key := "b.jpg" }],
    NextContinuationToken := none, IsTruncated := false }

/-- A backing store whose listing spans two pages: the call without a
continuation token gets `pageOne` (truncated, token "tok"), the call with the
token gets `pageTwo`. -/
def twoPageStore : Store := fun req =>
  if req.ContinuationToken = none then Except.ok pageOne else Except.ok pageTwo

/-- An environment with valid required variables that also requests a
10000 ms refresh interval. -/
def envWithInterval : Env := fun k =>
  if k = "AWS_BUCKET" then some "b"
  else if k = "AWS_REGION" then some "r"
  else if k = "AWS_ACCESS_KEY" then some "ak"
  else if k = "AWS_SECRET_KEY" then some "sk"
  else if k = "REFRESH_INTERVAL" then some "10000"
  else none

/-- An environment in which all four required variables are set but
AWS_REGION is the empty string. -/
def envEmptyRegion : Env := fun k =>
  if k = "AWS_BUCKET" then some "b"
  else if k = "AWS_REGION" then some ""
  else if k = "AWS_ACCESS_KEY" then some "ak"
  else if k = "AWS_SECRET_KEY" then some "sk"
  else none

/-- An environment with all four required variables set to non-empty values. -/
def envAllSet : Env := fun k =>
  if k = "AWS_BUCKET" then some "b"
  else if k = "AWS_REGION" then some "r"
  else if k = "AWS_ACCESS_KEY" then some "ak"
  else if k = "AWS_SECRET_KEY" then some "sk"
  else none

theorem lookupFolder_setFolder_self (m : List (String × List ObjectEntry))
    (k : String) (v : List ObjectEntry) :
    lookupFolder (setFolder m k v) k = some v := by
  induction m with
  | nil => simp [setFolder, lookupFolder]
  | cons p rest ih =>
    obtain ⟨k', w⟩ := p
    by_cases h : k' = k
    · simp [setFolder, lookupFolder, h]
    · simp [setFolder, lookupFolder, h, ih]

theorem lookupFolder_setFolder_other (m : List (String × List ObjectEntry))
    (k k' : String) (v : List ObjectEntry) (h : k' ≠ k) :
    lookupFolder (setFolder m k v) k' = lookupFolder m k' := by
  have hne : ¬(k = k') := fun hh => h hh.symm
  induction m with
  | nil => simp [setFolder, lookupFolder, hne]
  | cons p rest ih =>
    obtain ⟨a, w⟩ := p
    by_cases ha : a = k
    · subst ha
      simp [setFolder, lookupFolder, hne]
    · by_cases ha' : a = k'
      · simp [setFolder, ha, lookupFolder, ha', h]
      · simp [setFolder, ha, lookupFolder, ha', ih]

theorem mem_setFolder (m : List (String × List ObjectEntry))
    (k : String) (v : List ObjectEntry) (p : String × List ObjectEntry)
    (hp : p ∈ setFolder m k v) : p.2 = v ∨ p ∈ m := by
  induction m with
  | nil =>
    simp [setFolder] at hp
    subst hp
    exact Or.inl rfl
  | cons q rest ih =>
    obtain ⟨k', w⟩ := q
    by_cases h : k' = k
    · simp only [setFolder, if_pos h] at hp
      rcases List.mem_cons.mp hp with h1 | h2
      · exact Or.inl (by rw [h1])
      · exact Or.inr (List.mem_cons_of_mem _ h2)
    · simp only [setFolder, if_neg h] at hp
      rcases List.mem_cons.mp hp with h1 | h2
      · exact Or.inr (by rw [h1]; exact List.mem_cons_self _ _)
      · rcases ih h2 with h3 | h4
        · exact Or.inl h3
        · exact Or.inr (List.mem_cons_of_mem _ h4)

theorem lookupFolder_setFolderJs_self (m : List (String × List ObjectEntry))
    (k : String) (v : List ObjectEntry)
    (h : ¬(k = "__proto__" ∧ lookupFolder m k = none)) :
    lookupFolder (setFolderJs m k v) k = some v := by
  unfold setFolderJs
  rw [if_neg h]
  exact lookupFolder_setFolder_self m k v

theorem lookupFolder_setFolderJs_proto (m : List (String × List ObjectEntry))
    (v : List ObjectEntry) (h : lookupFolder m "__proto__" = none) :
    lookupFolder (setFolderJs m "__proto__" v) "__proto__" = none := by
  unfold setFolderJs
  rw [if_pos ⟨rfl, h⟩]
  exact h

theorem lookupFolder_setFolderJs_other (m : List (String × List ObjectEntry))
    (k k' : String) (v : List ObjectEntry) (h : k' ≠ k) :
    lookupFolder (setFolderJs m k v) k' = lookupFolder m k' := by
  unfold setFolderJs
  by_cases hc : k = "__proto__" ∧ lookupFolder m k = none
  · rw [if_pos hc]
  · rw [if_neg hc]
    exact lookupFolder_setFolder_other m k k' v h

theorem mem_setFolderJs (m : List (String × List ObjectEntry))
    (k : String) (v : List ObjectEntry) (p : String × List ObjectEntry)
    (hp : p ∈ setFolderJs m k v) : p.2 = v ∨ p ∈ m := by
  unfold setFolderJs at hp
  by_cases hc : k = "__proto__" ∧ lookupFolder m k = none
  · rw [if_pos hc] at hp
    exact Or.inr hp
  · rw [if_neg hc] at hp
    exact mem_setFolder m k v p hp

theorem isSome_lookupFolder_setFolderJs (m : List (String × List ObjectEntry))
    (k f : String) (v : List ObjectEntry)
    (h : (lookupFolder m f).isSome = true) :
    (lookupFolder (setFolderJs m k v) f).isSome = true := by
  by_cases hf : f = k
  · subst hf
    unfold setFolderJs
    by_cases hc : f = "__proto__" ∧ lookupFolder m f = none
    · rw [if_pos hc]
      exact h
    · rw [if_neg hc, lookupFolder_setFolder_self]
      rfl
  · rw [lookupFolder_setFolderJs_other m k f v hf]
    exact h

theorem isSome_lookupFolder_of_mem (m : List (String × List ObjectEntry))
    (p : String × List ObjectEntry) (hp : p ∈ m) :
    (lookupFolder m p.1).isSome = true := by
  induction m with
  | nil => cases hp
  | cons q rest ih =>
    obtain ⟨a, w⟩ := q
    rcases List.mem_cons.mp hp with h1 | h2
    · subst h1
      simp [lookupFolder]
    · by_cases ha : a = p.1
      · simp [lookupFolder, ha]
      · simp only [lookupFolder, if_neg ha]
        exact ih h2

theorem readFolderProp_eq_undef (m : List (String × List ObjectEntry))
    (key : String) (hname : isProtoProp key = false)
    (habsent : lookupFolder m key = none) :
    readFolderProp m key = JsValue.undef := by
  obtain ⟨h1, h2⟩ := not_or.mp (of_decide_eq_false hname)
  simp only [readFolderProp, habsent]
  rw [if_neg h1, if_neg h2]

theorem readFolderProp_eq_arr (m : List (String × List ObjectEntry))
    (key : String) (v : List ObjectEntry) (h : lookupFolder m key = some v) :
    readFolderProp m key = JsValue.arr v := by
  simp only [readFolderProp, h]

theorem cachedFolders_refreshImages (bucket region : String) (s3 : Store)
    (st : CacheState) :
    (refreshImages bucket region s3 st).cachedFolders = st.cachedFolders := by
  cases h : s3 { Bucket := bucket } <;> simp [refreshImages, listObjects, h]

theorem cachedImages_refreshFolder (bucket region : String) (s3 : Store)
    (folder : String) (st : CacheState) :
    (refreshFolder bucket region s3 folder st).cachedImages = st.cachedImages := by
  cases h : s3 { Bucket := bucket, Prefix := folder ++ "/" } <;>
    simp [refreshFolder, listObjects, h]

theorem getFolder_refreshFolder_other (bucket region : String) (s3 : Store)
    (folder other : String) (st : CacheState) (h : other ≠ folder) :
    getFolder (refreshFolder bucket region s3 folder st) other = getFolder st other := by
  cases hr : s3 { Bucket := bucket, Prefix := folder ++ "/" } with
  | ok data =>
    simp [getFolder, refreshFolder, listObjects, hr,
      lookupFolder_setFolderJs_other _ _ _ _ h]
  | error e => simp [refreshFolder, listObjects, hr]

theorem getFolder_refreshFolder_ok (bucket region : String) (s3 : Store)
    (folder : String) (st : CacheState) (data : ListResponse)
    (hw : ¬(folder = "__proto__" ∧ getFolder st folder = none))
    (h : s3 { Bucket := bucket, Prefix := folder ++ "/" } = Except.ok data) :
    getFolder (refreshFolder bucket region s3 folder st) folder =
      some (entriesOfResponse bucket region data) := by
  simp only [getFolder, refreshFolder, listObjects, h]
  exact lookupFolder_setFolderJs_self _ _ _ hw

theorem getFolder_foldl_refresh_not_mem (bucket region : String) (s3 : Store)
    (l : List String) (acc : CacheState) (f : String) (hf : f ∉ l) :
    getFolder (l.foldl (fun a g => refreshFolder bucket region s3 g a) acc) f =
      getFolder acc f := by
  induction l generalizing acc with
  | nil => rfl
  | cons g rest ih =>
    have hg : f ≠ g := fun hh => hf (hh ▸ List.mem_cons_self _ _)
    have hrest : f ∉ rest := fun hh => hf (List.mem_cons_of_mem _ hh)
    calc getFolder ((g :: rest).foldl (fun a g => refreshFolder bucket region s3 g a) acc) f
        = getFolder (rest.foldl (fun a g => refreshFolder bucket region s3 g a)
            (refreshFolder bucket region s3 g acc)) f := rfl
      _ = getFolder (refreshFolder bucket region s3 g acc) f := ih _ hrest
      _ = getFolder acc f := getFolder_refreshFolder_other bucket region s3 g f acc hg

theorem isSome_getFolder_refreshFolder (bucket region : String) (s3 : Store)
    (g : String) (st : CacheState) (f : String)
    (h : (getFolder st f).isSome = true) :
    (getFolder (refreshFolder bucket region s3 g st) f).isSome = true := by
  cases hr : s3 { Bucket := bucket, Prefix := g ++ "/" } with
  | ok data =>
    simp only [getFolder, refreshFolder, listObjects, hr]
    exact isSome_lookupFolder_setFolderJs _ _ _ _ h
  | error e =>
    simp only [refreshFolder, listObjects, hr]
    exact h

theorem getFolder_foldl_refresh_mem (bucket region : String) (s3 : Store)
    (l : List String) (acc : CacheState) (f : String) (hf : f ∈ l)
    (hown : (getFolder acc f).isSome = true) (data : ListResponse)
    (hok : s3 { Bucket := bucket, Prefix := f ++ "/" } = Except.ok data) :
    getFolder (l.foldl (fun a g => refreshFolder bucket region s3 g a) acc) f =
      some (entriesOfResponse bucket region data) := by
  induction l generalizing acc with
  | nil => cases hf
  | cons g rest ih =>
    by_cases hmem : f ∈ rest
    · exact ih _ hmem (isSome_getFolder_refreshFolder bucket region s3 g acc f hown)
    · have hfg : f = g := by
        rcases List.mem_cons.mp hf with h1 | h2
        · exact h1
        · exact absurd h2 hmem
      subst hfg
      have hw : ¬(f = "__proto__" ∧ getFolder acc f = none) := by
        rintro ⟨-, hnone⟩
        rw [hnone] at hown
        cases hown
      calc getFolder ((f :: rest).foldl (fun a g => refreshFolder bucket region s3 g a) acc) f
          = getFolder (rest.foldl (fun a g => refreshFolder bucket region s3 g a)
              (refreshFolder bucket region s3 f acc)) f := rfl
        _ = getFolder (refreshFolder bucket region s3 f acc) f :=
            getFolder_foldl_refresh_not_mem bucket region s3 rest _ f hmem
        _ = some (entriesOfResponse bucket region data) :=
            getFolder_refreshFolder_ok bucket region s3 f acc data hw hok

theorem cachedImages_foldl_refreshFolder (bucket region : String) (s3 : Store)
    (l : List String) (acc : CacheState) :
    (l.foldl (fun a g => refreshFolder bucket region s3 g a) acc).cachedImages =
      acc.cachedImages := by
  induction l generalizing acc with
  | nil => rfl
  | cons g rest ih =>
    calc ((g :: rest).foldl (fun a g => refreshFolder bucket region s3 g a) acc).cachedImages
        = (rest.foldl (fun a g => refreshFolder bucket region s3 g a)
            (refreshFolder bucket region s3 g acc)).cachedImages := rfl
      _ = (refreshFolder bucket region s3 g acc).cachedImages := ih _
      _ = acc.cachedImages := cachedImages_refreshFolder bucket region s3 g acc

/-- C2: `GET /api/images` is answered synchronously from the cached full
listing alone — the handler neither calls the backing store nor dispatches
any background action — and after a successful refresh it returns exactly the
entries derived from the latest successful backing-store listing. -/
theorem getImages_from_cache_after_refresh (bucket region : String) (s3 : Store)
    (st : CacheState) (data : ListResponse)
    (h : s3 { Bucket := bucket } = Except.ok data) :
    getImagesRoute st = (HttpResponse.okArray st.cachedImages, []) ∧
    getImagesRoute (refreshImages bucket region s3 st) =
      (HttpResponse.okArray (entriesOfResponse bucket region data), []) := by
  refine ⟨rfl, ?_⟩
  simp [getImagesRoute, refreshImages, listObjects, h]

theorem getImages_from_cache_after_refresh_witness :
    getImagesRoute (refreshImages "b" "r" okStore initialState) =
      (HttpResponse.okArray (entriesOfResponse "b" "r" okStoreData), []) :=
  (getImages_from_cache_after_refresh "b" "r" okStore initialState okStoreData rfl).2

/-- C3: a failed refresh leaves its cache slot exactly as it was: a failing
full refresh returns the state unchanged, a failing folder refresh returns
the state unchanged, and a folder entry absent before the failure is still
absent after it. -/
theorem failed_refresh_retains_cache (bucket region : String) (s3 : Store)
    (folder : String) (st : CacheState) (e1 e2 : S3Error) :
    (s3 { Bucket := bucket } = Except.error e1 →
      refreshImages bucket region s3 st = st) ∧
    (s3 { Bucket := bucket, Prefix := folder ++ "/" } = Except.error e2 →
      refreshFolder bucket region s3 folder st = st ∧
      (getFolder st folder = none →
        getFolder (refreshFolder bucket region s3 folder st) folder = none)) := by
  constructor
  · intro h
    simp [refreshImages, listObjects, h]
  · intro h
    have hsame : refreshFolder bucket region s3 folder st = st := by
      simp [refreshFolder, listObjects, h]
    exact ⟨hsame, fun ha => by rw [hsame]; exact ha⟩

theorem failed_refresh_retains_cache_witness :
    refreshImages "b" "r" failingStore initialState = initialState ∧
    refreshFolder "b" "r" failingStore "f" initialState = initialState := by
  have h := failed_refresh_retains_cache "b" "r" failingStore "f" initialState
    S3Error.storeUnavailable S3Error.storeUnavailable
  exact ⟨h.1 rfl, (h.2 rfl).1⟩

/-- C4 counterexample: the folder name "toString" has never had an entry in
`folderListings` (its slot is absent in the initial state), yet the first
`GET /api/images/toString` does not return the empty array and does not
trigger any background population: `cachedFolders["toString"]` resolves to
the inherited truthy `Object.prototype.toString`, so the handler serializes
it — an empty 200 body — and dispatches nothing. -/
theorem first_folder_request_proto_counterexample :
    getFolder initialState "toString" = none ∧
    getFolderImagesRoute initialState "toString" = (HttpResponse.okEmptyBody, []) ∧
    getFolderImagesRoute initialState "toString" ≠
      (HttpResponse.okArray [], [BackgroundAction.triggerRefreshFolder "toString"]) := by
  decide

/-- C4 amended: for every folder name that does not collide with an
`Object.prototype` property name (such as "toString", "constructor",
"valueOf" or "__proto__"), the first request for a never-seen folder
responds with the empty array and dispatches exactly one background
population call, and once a population for that folder has succeeded, a
subsequent request returns the cached entries with no further trigger;
colliding names read an inherited truthy value instead and never trigger a
population. -/
theorem first_folder_request_triggers_population (bucket region : String)
    (s3 : Store) (st : CacheState) (folder : String) (data : ListResponse)
    (hname : isProtoProp folder = false)
    (habsent : getFolder st folder = none)
    (hok : s3 { Bucket := bucket, Prefix := folder ++ "/" } = Except.ok data) :
    getFolderImagesRoute st folder =
      (HttpResponse.okArray [], [BackgroundAction.triggerRefreshFolder folder]) ∧
    getFolderImagesRoute (refreshFolder bucket region s3 folder st) folder =
      (HttpResponse.okArray (entriesOfResponse bucket region data), []) := by
  have hproto : ¬(folder = "__proto__") :=
    fun hc => of_decide_eq_false hname (Or.inl hc)
  constructor
  · simp [getFolderImagesRoute, readFolderProp_eq_undef _ _ hname habsent]
  · have hGet := getFolder_refreshFolder_ok bucket region s3 folder st data
      (fun hc => hproto hc.1) hok
    simp [getFolderImagesRoute, readFolderProp_eq_arr _ _ _ hGet]

theorem first_folder_request_triggers_population_witness :
    getFolderImagesRoute initialState "f" =
      (HttpResponse.okArray [], [BackgroundAction.triggerRefreshFolder "f"]) ∧
    getFolderImagesRoute (refreshFolder "b" "r" okStore "f" initialState) "f" =
      (HttpResponse.okArray (entriesOfResponse "b" "r" okStoreData), []) :=
  first_folder_request_triggers_population "b" "r" okStore initialState "f"
    okStoreData (by decide) rfl rfl

/-- C5 counterexample: two listing-endpoint requests whose response is a 200
but not a JSON array: `GET /api/images/toString` serializes the inherited
`Object.prototype.toString` function (empty body), and
`GET /api/images/__proto__` serializes the inherited prototype object (a
JSON object), refuting "the HTTP response is a 200 JSON array" for every
request to a listing endpoint. -/
theorem listing_routes_proto_counterexample :
    getFolderImagesRoute initialState "toString" = (HttpResponse.okEmptyBody, []) ∧
    isJsonArray (getFolderImagesRoute initialState "toString").1 = false ∧
    getFolderImagesRoute initialState "__proto__" = (HttpResponse.okJsonObject, []) ∧
    isJsonArray (getFolderImagesRoute initialState "__proto__").1 = false := by
  decide

/-- C5 amended: for every request to a listing endpoint and every
backing-store behavior including failure of any store call, the response is
a 200, never the error middleware's 500 — a backing-store failure is never
surfaced to the HTTP caller; the body is a JSON array (possibly empty or
stale) in every case except a never-populated folder whose name collides
with an `Object.prototype` property, where the 200 carries the serialized
inherited value (an empty body for an inherited function, a JSON object for
"__proto__") instead of an array. -/
theorem listing_routes_never_error (bucket region : String) (s3 : Store)
    (st : CacheState) (folder : String) :
    (getImagesRoute st).1 = HttpResponse.okArray st.cachedImages ∧
    (getFolderImagesRoute st folder).1 ≠ HttpResponse.serverError ∧
    (getFolderImagesRoute (refreshFolder bucket region s3 folder st) folder).1 ≠
      HttpResponse.serverError ∧
    (isProtoProp folder = false →
      (∃ body, (getFolderImagesRoute st folder).1 = HttpResponse.okArray body) ∧
      (∃ body, (getFolderImagesRoute (refreshFolder bucket region s3 folder st) folder).1 =
        HttpResponse.okArray body)) := by
  have hne : ∀ st' : CacheState,
      (getFolderImagesRoute st' folder).1 ≠ HttpResponse.serverError := by
    intro st'
    unfold getFolderImagesRoute
    cases readFolderProp st'.cachedFolders folder <;> simp
  have harr : ∀ st' : CacheState, isProtoProp folder = false →
      ∃ body, (getFolderImagesRoute st' folder).1 = HttpResponse.okArray body := by
    intro st' hname
    cases hl : lookupFolder st'.cachedFolders folder with
    | none => exact ⟨[], by simp [getFolderImagesRoute, readFolderProp_eq_undef _ _ hname hl]⟩
    | some v => exact ⟨v, by simp [getFolderImagesRoute, readFolderProp_eq_arr _ _ _ hl]⟩
  exact ⟨rfl, hne st, hne _, fun hname => ⟨harr st hname, harr _ hname⟩⟩

theorem listing_routes_never_error_witness :
    (getFolderImagesRoute initialState "a").1 ≠ HttpResponse.serverError ∧
    (∃ body, (getFolderImagesRoute initialState "a").1 = HttpResponse.okArray body) := by
  have h := listing_routes_never_error "b" "r" failingStore initialState "a"
  exact ⟨h.2.1, (h.2.2.2 (by decide)).1⟩

/-- C10 counterexample: the folder "toString" has no entry in
`folderListings` (its population has never succeeded), yet repeated polls
never issue a backing-store call: three polls dispatch no refresh trigger at
all, instead of one trigger per poll — the inherited truthy
`Object.prototype.toString` makes every poll skip the population path. -/
theorem polls_never_trigger_proto_counterexample :
    getFolder initialState "toString" = none ∧
    processPolls initialState "toString" 3 = [] ∧
    processPolls initialState "toString" 3 ≠
      List.replicate 3 (BackgroundAction.triggerRefreshFolder "toString") := by
  decide

/-- C10 amended: for every folder name that does not collide with an
`Object.prototype` property name, while the folder's slot is still absent,
every request for it — not only the first — responds with the empty array
and dispatches a fresh background population call; `n` polls against the
unchanged state dispatch `n` refresh triggers (no in-flight deduplication);
colliding names never dispatch a population at all. -/
theorem absent_folder_every_poll_triggers (st : CacheState) (folder : String)
    (n : Nat) (hname : isProtoProp folder = false)
    (habsent : getFolder st folder = none) :
    getFolderImagesRoute st folder =
      (HttpResponse.okArray [], [BackgroundAction.triggerRefreshFolder folder]) ∧
    processPolls st folder n =
      List.replicate n (BackgroundAction.triggerRefreshFolder folder) := by
  have h1 : getFolderImagesRoute st folder =
      (HttpResponse.okArray [], [BackgroundAction.triggerRefreshFolder folder]) := by
    simp [getFolderImagesRoute, readFolderProp_eq_undef _ _ hname habsent]
  refine ⟨h1, ?_⟩
  induction n with
  | zero => rfl
  | succ n ih =>
    simp only [processPolls, h1, ih, List.replicate_succ]
    rfl

theorem absent_folder_every_poll_triggers_witness :
    processPolls initialState "f" 3 =
      List.replicate 3 (BackgroundAction.triggerRefreshFolder "f") :=
  (absent_folder_every_poll_triggers initialState "f" 3 (by decide) rfl).2

/-- C6: a successful refresh replaces exactly one cache slot as one discrete
assignment and leaves every other slot unchanged: `refreshImages` never
touches `cachedFolders`, `refreshFolder folder` never touches `cachedImages`
nor any other folder's slot, and each refreshed slot is observed either as
its complete pre-refresh value or as the complete post-refresh listing,
never a partial mix. -/
theorem refresh_updates_exactly_one_slot (bucket region : String) (s3 : Store)
    (folder other : String) (st : CacheState) :
    (refreshImages bucket region s3 st).cachedFolders = st.cachedFolders ∧
    (refreshFolder bucket region s3 folder st).cachedImages = st.cachedImages ∧
    (other ≠ folder →
      getFolder (refreshFolder bucket region s3 folder st) other = getFolder st other) ∧
    ((refreshImages bucket region s3 st).cachedImages = st.cachedImages ∨
      ∃ data, s3 { Bucket := bucket } = Except.ok data ∧
        (refreshImages bucket region s3 st).cachedImages =
          entriesOfResponse bucket region data) ∧
    (getFolder (refreshFolder bucket region s3 folder st) folder = getFolder st folder ∨
      ∃ data, s3 { Bucket := bucket, Prefix := folder ++ "/" } = Except.ok data ∧
        getFolder (refreshFolder bucket region s3 folder st) folder =
          some (entriesOfResponse bucket region data)) := by
  refine ⟨cachedFolders_refreshImages bucket region s3 st,
    cachedImages_refreshFolder bucket region s3 folder st,
    fun h => getFolder_refreshFolder_other bucket region s3 folder other st h,
    ?_, ?_⟩
  · cases h : s3 { Bucket := bucket } with
    | ok data => exact Or.inr ⟨data, rfl, by simp [refreshImages, listObjects, h]⟩
    | error e => exact Or.inl (by simp [refreshImages, listObjects, h])
  · cases h : s3 { Bucket := bucket, Prefix := folder ++ "/" } with
    | ok data =>
      by_cases hp : folder = "__proto__" ∧ getFolder st folder = none
      · refine Or.inl ?_
        obtain ⟨hp1, hp2⟩ := hp
        subst hp1
        have hp2' : lookupFolder st.cachedFolders "__proto__" = none := hp2
        simp only [getFolder, refreshFolder, listObjects, h]
        rw [lookupFolder_setFolderJs_proto _ _ hp2', hp2']
      · exact Or.inr ⟨data, rfl,
          getFolder_refreshFolder_ok bucket region s3 folder st data hp h⟩
    | error e => exact Or.inl (by simp [refreshFolder, listObjects, h])

theorem refresh_updates_exactly_one_slot_witness :
    getFolder (refreshFolder "b" "r" okStore "f" initialState) "g" =
      getFolder initialState "g" ∧
    (refreshImages "b" "r" okStore initialState).cachedFolders =
      initialState.cachedFolders := by
  have h := refresh_updates_exactly_one_slot "b" "r" okStore "f" "g" initialState
  exact ⟨h.2.2.1 (by decide), h.1⟩

/-- C7: in every cache state reachable from process start by the program's
refresh operations, and in every listing produced directly from a store
response, each entry's `url` is exactly the URL template applied to the
bucket, the region and the entry's `key`. -/
theorem url_always_derived_from_key (bucket region : String) :
    (∀ st, Reachable bucket region st → urlInvariant bucket region st) ∧
    (∀ data : ListResponse, ∀ e ∈ entriesOfResponse bucket region data,
      e.url = urlOf bucket region e.key) := by
  have hresp : ∀ data : ListResponse, ∀ e ∈ entriesOfResponse bucket region data,
      e.url = urlOf bucket region e.key := by
    intro data e he
    unfold entriesOfResponse at he
    cases hc : data.Contents with
    | none => simp [hc] at he
    | some files =>
      simp only [hc, Option.map_some', Option.getD_some, List.mem_map] at he
      obtain ⟨f, _, rfl⟩ := he
      rfl
  refine ⟨?_, hresp⟩
  intro st hst
  induction hst with
  | init =>
    constructor
    · intro e he
      simp [initialState] at he
    · intro p hp
      simp [initialState] at hp
  | stepFull s3 st h ih =>
    constructor
    · intro e he
      cases hr : s3 { Bucket := bucket } with
      | ok data =>
        simp only [refreshImages, listObjects, hr] at he
        exact hresp data e he
      | error err =>
        simp only [refreshImages, listObjects, hr] at he
        exact ih.1 e he
    · intro p hp
      rw [cachedFolders_refreshImages bucket region s3 st] at hp
      exact ih.2 p hp
  | stepFolder s3 folder st h ih =>
    constructor
    · intro e he
      rw [cachedImages_refreshFolder bucket region s3 folder st] at he
      exact ih.1 e he
    · intro p hp
      cases hr : s3 { Bucket := bucket, Prefix := folder ++ "/" } with
      | ok data =>
        simp only [refreshFolder, listObjects, hr] at hp
        rcases mem_setFolderJs st.cachedFolders folder
            (entriesOfResponse bucket region data) p hp with h1 | h2
        · intro e he
          rw [h1] at he
          exact hresp data e he
        · exact ih.2 p h2
      | error err =>
        simp only [refreshFolder, listObjects, hr] at hp
        exact ih.2 p hp

theorem url_always_derived_from_key_witness :
    ObjectEntry.url { key := "pics/cat.jpg", url := urlOf "b" "r" "pics/cat.jpg" } =
      urlOf "b" "r" "pics/cat.jpg" := by
  have h := url_always_derived_from_key "b" "r"
  exact (h.1 (refreshImages "b" "r" okStore initialState)
    (Reachable.stepFull okStore initialState Reachable.init)).1
    { key := "pics/cat.jpg", url := urlOf "b" "r" "pics/cat.jpg" } (by decide)

/-- C1 counterexample: against a backing store whose listing spans two pages
(`pageOne` is truncated and carries the continuation token "tok", and the
call made with that token returns `pageTwo` holding "b.jpg"), the program's
full refresh caches only the first page: the resulting listing is exactly
["a.jpg"] and does not contain the object "b.jpg" of the second page, so the
listing is not drained across pages. -/
theorem listObjects_ignores_pagination_counterexample :
    listObjects twoPageStore { Bucket := "b" } = Except.ok pageOne ∧
    pageOne.IsTruncated = true ∧
    pageOne.NextContinuationToken = some "tok" ∧
    listObjects twoPageStore { Bucket := "b", ContinuationToken := some "tok" } =
      Except.ok pageTwo ∧
    "b.jpg" ∈ (pageTwo.Contents.getD []).map S3Object.Key ∧
    (refreshImages "b" "r" twoPageStore initialState).cachedImages.map
      ObjectEntry.key = ["a.jpg"] ∧
    "b.jpg" ∉ (refreshImages "b" "r" twoPageStore initialState).cachedImages.map
      ObjectEntry.key := by
  exact ⟨rfl, rfl, rfl, rfl, by decide, by decide, by decide⟩

/-- C1 amended: the gateway issues exactly one list call per listing (with the
source defaults, so no continuation token and at most 1000 keys) and the
refreshed cache is exactly the entries of that single first page, even when
the store reports the listing truncated; further pages are never requested. -/
theorem listObjects_single_call_first_page (bucket region : String) (s3 : Store)
    (st : CacheState) (data : ListResponse)
    (h : s3 { Bucket := bucket } = Except.ok data) :
    listObjects s3 { Bucket := bucket } = Except.ok data ∧
    (refreshImages bucket region s3 st).cachedImages =
      entriesOfResponse bucket region data := by
  exact ⟨h, by simp [refreshImages, listObjects, h]⟩

theorem listObjects_single_call_first_page_witness :
    (refreshImages "b" "r" twoPageStore initialState).cachedImages =
      entriesOfResponse "b" "r" pageOne :=
  (listObjects_single_call_first_page "b" "r" twoPageStore initialState pageOne rfl).2

/-- C8 counterexample: the refresh interval is the hard-coded literal
`45 * 1000` milliseconds; an environment that sets REFRESH_INTERVAL to
"10000" still gets a 45000 ms interval, so the interval is not configurable
through the environment. -/
theorem refresh_interval_not_configurable_counterexample :
    envWithInterval "REFRESH_INTERVAL" = some "10000" ∧
    refreshIntervalMs envWithInterval = 45000 ∧ (45000 : Nat) ≠ 10000 := by
  decide

/-- C8 amended: the refresh interval is fixed at 45 seconds (45000 ms) for
every environment, and on each tick the program refreshes the full listing
and the listing of every folder currently present in `cachedFolders`: after
a tick against a store that answers those requests, the full slot holds the
entries of the bucket listing and each listed folder's slot holds the entries
of that folder's listing. -/
theorem tick_fixed_interval_refreshes_all (bucket region : String) (s3 : Store)
    (st : CacheState) (env : Env) (dataFull : ListResponse)
    (hfull : s3 { Bucket := bucket } = Except.ok dataFull) :
    refreshIntervalMs env = 45 * 1000 ∧
    (tick bucket region s3 st).cachedImages =
      entriesOfResponse bucket region dataFull ∧
    (∀ f ∈ folderNames st, ∀ data : ListResponse,
      s3 { Bucket := bucket, Prefix := f ++ "/" } = Except.ok data →
      getFolder (tick bucket region s3 st) f =
        some (entriesOfResponse bucket region data)) := by
  refine ⟨rfl, ?_, ?_⟩
  · calc (tick bucket region s3 st).cachedImages
        = (refreshImages bucket region s3 st).cachedImages := by
          unfold tick folderTick
          exact cachedImages_foldl_refreshFolder bucket region s3 _ _
      _ = entriesOfResponse bucket region dataFull := by
          simp [refreshImages, listObjects, hfull]
  · intro f hf data hok
    have hnames : folderNames (refreshImages bucket region s3 st) = folderNames st := by
      unfold folderNames
      rw [cachedFolders_refreshImages]
    have hown : (getFolder (refreshImages bucket region s3 st) f).isSome = true := by
      obtain ⟨p, hp, hfp⟩ := List.mem_map.mp hf
      show (lookupFolder (refreshImages bucket region s3 st).cachedFolders f).isSome = true
      rw [cachedFolders_refreshImages, ← hfp]
      exact isSome_lookupFolder_of_mem st.cachedFolders p hp
    unfold tick folderTick
    rw [hnames]
    exact getFolder_foldl_refresh_mem bucket region s3 (folderNames st) _ f hf hown data hok

theorem tick_fixed_interval_refreshes_all_witness :
    refreshIntervalMs envWithInterval = 45 * 1000 ∧
    getFolder (tick "b" "r" okStore
      { cachedImages := [], cachedFolders := [("a", [])] }) "a" =
      some (entriesOfResponse "b" "r" okStoreData) := by
  have h := tick_fixed_interval_refreshes_all "b" "r" okStore
    { cachedImages := [], cachedFolders := [("a", [])] } envWithInterval okStoreData rfl
  exact ⟨h.1, h.2.2 "a" (by decide) okStoreData rfl⟩

/-- C9 counterexample: an environment in which all four required variables
are present (set) but AWS_REGION has the empty string as value makes the
process exit before the listener binds, refuting "if all four are present,
startup proceeds to bind the listener": presence is not sufficient, the
values must also be non-empty (JavaScript truthiness of `process.env[key]`). -/
theorem startup_present_but_empty_counterexample :
    (requiredEnv.all fun k => (envEmptyRegion k).isSome) = true ∧
    startup envEmptyRegion = StartupResult.exited "AWS_REGION" := by
  decide

/-- C9 amended: if some required configuration variable is unset or set to
the empty string, startup emits a diagnostic naming a required variable and
terminates before the listener is bound; if all four are set to non-empty
values, startup proceeds to bind the listener. -/
theorem startup_validates_required_env (env : Env) :
    ((∃ k ∈ requiredEnv, truthy (env k) = false) →
      ∃ k ∈ requiredEnv, startup env = StartupResult.exited k) ∧
    ((∀ k ∈ requiredEnv, truthy (env k) = true) →
      startup env = StartupResult.listening (portOf env)) := by
  constructor
  · rintro ⟨k, hk, hfalse⟩
    have hsome : (requiredEnv.find? fun key => !truthy (env key)).isSome := by
      rw [List.find?_isSome]
      exact ⟨k, hk, by rw [hfalse]; rfl⟩
    obtain ⟨k', hk'⟩ := Option.isSome_iff_exists.mp hsome
    exact ⟨k', List.mem_of_find?_eq_some hk', by simp [startup, firstMissing, hk']⟩
  · intro hall
    have hnone : firstMissing env = none := by
      unfold firstMissing
      rw [List.find?_eq_none]
      intro k hk
      simp [hall k hk]
    simp [startup, hnone]

theorem startup_validates_required_env_witness :
    startup envAllSet = StartupResult.listening "5000" := by
  have h := (startup_validates_required_env envAllSet).2 (by decide)
  exact h.trans (by decide)
